import Mathlib

/-!
Verification development for the USB NCM link-resilience firmware.

Shallow embedding of three modules of the firmware:
  * `log_stream.c`  — multi-reader circular text-log buffer,
  * `event_log.c`   — sticky critical-event log,
  * `network_setup.c` — link state controller and recovery watchdog.

Operations are modelled as pure functions on explicit state records.
FreeRTOS mutexes always succeed in this sequential model (the uncontended
case); timed sleeps inside a transition only advance the value read by the
next `now_ms()` call of that same transition, exactly as in the source.
C fixed-size arrays are modelled as total functions `Nat → _` together with
the source's own index guards; `uint32_t` time arithmetic is modelled with
explicit reduction modulo `2^32`.
-/

namespace McuBridge

/-- `2^32`, the modulus of `uint32_t` arithmetic. -/
def W32 : Nat := 4294967296

/-- Wrapping `uint32_t` subtraction `a - b` (both operands already reduced). -/
def u32sub (a b : Nat) : Nat := (a % W32 + (W32 - b % W32)) % W32

/-! ## LogStream (`log_stream.c`) -/

/-- `LOG_BUFFER_LINES` — number of log lines buffered. -/
def LOG_BUFFER_LINES : Nat := 100

/-- `LOG_LINE_MAX_LEN` — slot size; at most `LOG_LINE_MAX_LEN - 1` payload bytes. -/
def LOG_LINE_MAX_LEN : Nat := 256

/-- `MAX_READERS` — size of the reader-cursor pool. -/
def MAX_READERS : Nat := 4

/-- State of `log_stream.c`: the circular buffer (a slot holds the byte list
written there, so `s_log_lengths[i]` is `(buffer i).length`), the write index,
the monotone total-written counter and the reader pool. -/
structure LogSt where
  buffer : Nat → List Char
  writeIdx : Nat
  totalWritten : Nat
  readerPos : Nat → Nat
  readerActive : Nat → Bool

/-- `log_buffer_init`. -/
def log_buffer_init : LogSt :=
  { buffer := fun _ => []
    writeIdx := 0
    totalWritten := 0
    readerPos := fun _ => 0
    readerActive := fun _ => false }

/-- `log_buffer_add(line, len)`.  A NULL `line` is `none`; `len` counts the
bytes to copy from the front of `line`.  The length is clamped to
`LOG_LINE_MAX_LEN - 1` before the copy, the slot at the write index is
overwritten, the write index advances circularly and `s_total_written`
increments. -/
def log_buffer_add (line : Option (List Char)) (len : Nat) (s : LogSt) : LogSt :=
  match line with
  | none => s
  | some l =>
    if len = 0 then s
    else
      let len2 := if len > LOG_LINE_MAX_LEN - 1 then LOG_LINE_MAX_LEN - 1 else len
      { s with
        buffer := fun j => if j = s.writeIdx then l.take len2 else s.buffer j
        writeIdx := (s.writeIdx + 1) % LOG_BUFFER_LINES
        totalWritten := s.totalWritten + 1 }

/-- `log_buffer_alloc_reader` — first inactive slot among `0..3`, its position
initialised to the current `s_total_written`; `none` when the pool is full
(the C code returns `-1`). -/
def log_buffer_alloc_reader (s : LogSt) : Option Nat × LogSt :=
  if ¬ s.readerActive 0 then
    (some 0, { s with readerActive := fun j => if j = 0 then true else s.readerActive j
                      readerPos := fun j => if j = 0 then s.totalWritten else s.readerPos j })
  else if ¬ s.readerActive 1 then
    (some 1, { s with readerActive := fun j => if j = 1 then true else s.readerActive j
                      readerPos := fun j => if j = 1 then s.totalWritten else s.readerPos j })
  else if ¬ s.readerActive 2 then
    (some 2, { s with readerActive := fun j => if j = 2 then true else s.readerActive j
                      readerPos := fun j => if j = 2 then s.totalWritten else s.readerPos j })
  else if ¬ s.readerActive 3 then
    (some 3, { s with readerActive := fun j => if j = 3 then true else s.readerActive j
                      readerPos := fun j => if j = 3 then s.totalWritten else s.readerPos j })
  else (none, s)

/-- `log_buffer_free_reader(id)`. -/
def log_buffer_free_reader (id : Nat) (s : LogSt) : LogSt :=
  if id ≥ MAX_READERS then s
  else { s with readerActive := fun j => if j = id then false else s.readerActive j }

/-- `log_buffer_read(reader_id, &len)` — returns the line read (with its
stored length implicit as the list length) and the updated state.  A reader
more than `LOG_BUFFER_LINES` behind is first jumped forward to
`totalWritten - LOG_BUFFER_LINES` (catch-up), then the line at its position
is returned and the position advances by one. -/
def log_buffer_read (id : Nat) (s : LogSt) : Option (List Char) × LogSt :=
  if id ≥ MAX_READERS then (none, s)
  else if s.readerActive id ∧ s.readerPos id < s.totalWritten then
    let behind := s.totalWritten - s.readerPos id
    let (pos, behind2) :=
      if behind > LOG_BUFFER_LINES then
        (s.totalWritten - LOG_BUFFER_LINES, LOG_BUFFER_LINES)
      else (s.readerPos id, behind)
    let bufIdx := (s.writeIdx + LOG_BUFFER_LINES - behind2) % LOG_BUFFER_LINES
    (some (s.buffer bufIdx),
     { s with readerPos := fun j => if j = id then pos + 1 else s.readerPos j })
  else (none, s)

/-- `log_buffer_get_count` — `min(totalWritten, LOG_BUFFER_LINES)`. -/
def log_buffer_get_count (s : LogSt) : Nat :=
  if s.totalWritten < LOG_BUFFER_LINES then s.totalWritten else LOG_BUFFER_LINES

/-- Copy loop of `log_buffer_get_all`: `n` iterations remain, `i` is the loop
counter, `written` the bytes emitted so far.  The loop guard
`written < buf_size - 2` and the per-line room check
`written + line_len + 1 >= buf_size` are those of the source. -/
def dumpGo (buf : Nat → List Char) (start bufSize : Nat) : Nat → Nat → Nat → List Char
  | _, 0, _ => []
  | i, n + 1, written =>
    if written < bufSize - 2 then
      let line := buf ((start + i) % LOG_BUFFER_LINES)
      if written + line.length + 1 ≥ bufSize then []
      else line ++ '\n' :: dumpGo buf start bufSize (i + 1) n (written + line.length + 1)
    else []

/-- `log_buffer_get_all(out_buf, buf_size)` — the byte sequence written into
the output buffer (the returned `written` count is its length; the
terminating NUL is not part of it). -/
def log_buffer_get_all (s : LogSt) (bufSize : Nat) : List Char :=
  if bufSize = 0 then []
  else
    let numLines := if s.totalWritten < LOG_BUFFER_LINES then s.totalWritten else LOG_BUFFER_LINES
    if numLines > 0 then
      let start := if s.totalWritten ≤ LOG_BUFFER_LINES then 0 else s.writeIdx
      dumpGo s.buffer start bufSize 0 numLines 0
    else []

/-- Append one line through `log_buffer_add`, passing its own length —
how every producer in the firmware calls it. -/
def addLine (l : List Char) (s : LogSt) : LogSt :=
  log_buffer_add (some l) l.length s

/-- Append a whole list of lines in order. -/
def addAll (ls : List (List Char)) (s : LogSt) : LogSt :=
  ls.foldl (fun s l => addLine l s) s

/-- The truncation `append` applies to a stored line. -/
def trunc (l : List Char) : List Char := l.take (LOG_LINE_MAX_LEN - 1)

/-- Bytes `dumpAll` needs for a list of lines: each line plus its newline. -/
def dumpLen (ls : List (List Char)) : Nat :=
  (ls.map (fun l => l.length + 1)).sum

/-- Relation between the lines appended so far (`ls`, in order) and the
buffer-side fields of the state: the counter and write index track
`ls.length`, and every line still resident — one of the most recent
`LOG_BUFFER_LINES` — sits, truncated, in its slot `i % LOG_BUFFER_LINES`. -/
def BufInv (ls : List (List Char)) (s : LogSt) : Prop :=
  s.totalWritten = ls.length ∧
  s.writeIdx = ls.length % LOG_BUFFER_LINES ∧
  ∀ i, i < ls.length → ls.length ≤ i + LOG_BUFFER_LINES →
    s.buffer (i % LOG_BUFFER_LINES) = trunc (ls.getD i [])

/-! ## EventLog (`event_log.c`) -/

/-- `EVT_USB_MOUNTED` (enum `event_type_t`, value 0). -/
def EVT_USB_MOUNTED : Nat := 0
/-- `EVT_USB_UNMOUNTED`. -/
def EVT_USB_UNMOUNTED : Nat := 1
/-- `EVT_USB_SUSPENDED`. -/
def EVT_USB_SUSPENDED : Nat := 2
/-- `EVT_USB_RESUMED`. -/
def EVT_USB_RESUMED : Nat := 3
/-- `EVT_NCM_LINK_UP`. -/
def EVT_NCM_LINK_UP : Nat := 4
/-- `EVT_NETIF_READY`. -/
def EVT_NETIF_READY : Nat := 5
/-- `EVT_FIRST_RX`. -/
def EVT_FIRST_RX : Nat := 6
/-- `EVT_FIRST_TX`. -/
def EVT_FIRST_TX : Nat := 7
/-- `EVT_DHCP_DISCOVER_RX`. -/
def EVT_DHCP_DISCOVER_RX : Nat := 8
/-- `EVT_DHCP_OFFER_TX`. -/
def EVT_DHCP_OFFER_TX : Nat := 9
/-- `EVT_COUNT` — number of event types. -/
def EVT_COUNT : Nat := 13

/-- `MAX_EVENTS` — capacity of the record sequence. -/
def MAX_EVENTS : Nat := 30
/-- `MAX_DETAIL_LEN` — size of the detail field, terminator included. -/
def MAX_DETAIL_LEN : Nat := 64

/-- One `event_entry_t`. -/
structure EventEntry where
  timestamp_ms : Nat
  etype : Nat
  detail : List Char
deriving DecidableEq, Repr

/-- State of `event_log.c`: the bounded record sequence and the sticky
occurrence table `s_event_occurred`. -/
structure EventLogSt where
  events : List EventEntry
  occurred : Nat → Bool

/-- `event_log_init`. -/
def event_log_init : EventLogSt :=
  { events := [], occurred := fun _ => false }

/-- `event_log_record(type, detail)` at time `t` (the `esp_timer` value in
milliseconds).  Out-of-range types are rejected up front; otherwise the
occurrence flag is set and, if the sequence has room, an entry is appended
with the detail truncated by `strncpy(_, _, MAX_DETAIL_LEN - 1)` to its first
`MAX_DETAIL_LEN - 1` bytes (`NULL` detail stores the empty string). -/
def event_log_record (t ty : Nat) (detail : Option (List Char)) (s : EventLogSt) :
    EventLogSt :=
  if EVT_COUNT ≤ ty then s
  else
    { events :=
        if s.events.length < MAX_EVENTS then
          s.events ++ [{ timestamp_ms := t % W32
                         etype := ty
                         detail := match detail with
                                   | some d => d.take (MAX_DETAIL_LEN - 1)
                                   | none => [] }]
        else s.events
      occurred := fun i => if i = ty then true else s.occurred i }

/-- `event_log_has(type)`. -/
def event_log_has (ty : Nat) (s : EventLogSt) : Bool :=
  if EVT_COUNT ≤ ty then false else s.occurred ty

/-- Apply a list of `record` calls (time, type, detail) in order. -/
def applyRecords (ops : List (Nat × Nat × Option (List Char))) (s : EventLogSt) :
    EventLogSt :=
  ops.foldl (fun s op => event_log_record op.1 op.2.1 op.2.2 s) s

/-! ## LinkStateController and RecoveryWatchdog (`network_setup.c`) -/

/-- `USB_LINK_KICK_DELAY_MS`. -/
def USB_LINK_KICK_DELAY_MS : Nat := 250
/-- `USB_NO_RX_GRACE_MS`. -/
def USB_NO_RX_GRACE_MS : Nat := 2000
/-- `USB_RECOVER_DETACH_MS`. -/
def USB_RECOVER_DETACH_MS : Nat := 400
/-- `USB_RECOVER_POST_ATTACH_MS`. -/
def USB_RECOVER_POST_ATTACH_MS : Nat := 400
/-- `USB_RECOVER_MAX_ATTEMPTS`. -/
def USB_RECOVER_MAX_ATTEMPTS : Nat := 5
/-- `USB_RECOVER_BACKOFF_START_MS`. -/
def USB_RECOVER_BACKOFF_START_MS : Nat := 2500
/-- `USB_RECOVER_BACKOFF_MAX_MS`. -/
def USB_RECOVER_BACKOFF_MAX_MS : Nat := 15000

/-- The `esp_err_t` values `network_setup.c` produces on its modelled paths. -/
inductive EspErr where
  | ok
  | fail
deriving DecidableEq, Repr

/-- The module state of `network_setup.c`.

Fields mirror the `static` variables (`s_stack_ready`, `s_usb_mounted`,
`s_link_up`, `s_mount_ms`, `s_last_rx_ms`, `s_last_recover_ms`,
`s_backoff_ms`, `s_recover_attempts`, `s_first_rx_logged`,
`s_first_tx_logged`, the four packet/byte counters).  Two instrumentation
fields observe behaviour the C state does not store: `suspended` tracks the
interval between the `tud_suspend_cb` and `tud_resume_cb` callbacks (the
spec's `suspended` flag — no C variable holds it), and `stackKicks` counts
executions of the watchdog's stack-ready kick block.  `events` mirrors the
`event_log_record` calls this module makes, as (type, detail) pairs. -/
structure NetSt where
  stackReady : Bool
  mounted : Bool
  linkUp : Bool
  suspended : Bool
  mountMs : Nat
  lastRxMs : Nat
  lastRecoverMs : Nat
  backoffMs : Nat
  recoverAttempts : Nat
  firstRxLogged : Bool
  firstTxLogged : Bool
  rxPackets : Nat
  txPackets : Nat
  rxBytes : Nat
  txBytes : Nat
  stackKicks : Nat
  events : List (Nat × Option String)
deriving DecidableEq, Repr

/-- The state at process start — all false / zero, backoff at its floor
(static initialisers of `network_setup.c`). -/
def initNet : NetSt :=
  { stackReady := false, mounted := false, linkUp := false, suspended := false
    mountMs := 0, lastRxMs := 0, lastRecoverMs := 0
    backoffMs := USB_RECOVER_BACKOFF_START_MS, recoverAttempts := 0
    firstRxLogged := false, firstTxLogged := false
    rxPackets := 0, txPackets := 0, rxBytes := 0, txBytes := 0
    stackKicks := 0, events := [] }

/-- `usb_set_link_state(up, reason)` — the sole mutator of `s_link_up`; it
always forwards `up` to `tud_network_link_state` (external) and records
`EVT_NCM_LINK_UP` with the reason on an up call (the `s_link_up == up` test
in the source only suppresses nothing — both branches fall through). -/
def usb_set_link_state (up : Bool) (reason : Option String) (s : NetSt) : NetSt :=
  { s with linkUp := up
           events := if up then s.events ++ [(EVT_NCM_LINK_UP, reason)] else s.events }

/-- `tud_mount_cb` at time `t`. -/
def tud_mount_cb (t : Nat) (s : NetSt) : NetSt :=
  usb_set_link_state false (some "mounted")
    { s with mounted := true
             mountMs := t % W32
             lastRxMs := 0
             recoverAttempts := 0
             backoffMs := USB_RECOVER_BACKOFF_START_MS
             lastRecoverMs := 0
             events := s.events ++ [(EVT_USB_MOUNTED, none)] }

/-- `tud_umount_cb`. -/
def tud_umount_cb (s : NetSt) : NetSt :=
  usb_set_link_state false (some "unmounted")
    { s with mounted := false
             mountMs := 0
             lastRxMs := 0
             firstRxLogged := false
             firstTxLogged := false
             events := s.events ++ [(EVT_USB_UNMOUNTED, none)] }

/-- `tud_suspend_cb(remote_wakeup_en)`.  Sets the instrumentation flag
`suspended`. -/
def tud_suspend_cb (wake : Bool) (s : NetSt) : NetSt :=
  usb_set_link_state false (some "suspended")
    { s with suspended := true
             events := s.events ++ [(EVT_USB_SUSPENDED, if wake then some "wake_en" else none)] }

/-- `tud_resume_cb` — records the event, then, when still mounted with the
stack ready, performs the kick sequence (down, settle delay, up).  Clears the
instrumentation flag `suspended`. -/
def tud_resume_cb (s : NetSt) : NetSt :=
  let s1 := { s with suspended := false
                     events := s.events ++ [(EVT_USB_RESUMED, none)] }
  if s1.mounted ∧ s1.stackReady then
    usb_set_link_state true (some "resume_kick_up")
      (usb_set_link_state false (some "resume_kick_down") s1)
  else s1

/-- Tail of `network_init` (steps [6]–[7]): record `EVT_NETIF_READY`, then set
`s_stack_ready` — the stack-ready signal. -/
def stack_ready_set (s : NetSt) : NetSt :=
  { s with stackReady := true
           events := s.events ++ [(EVT_NETIF_READY, none)] }

/-- `netif_recv_callback(buffer, len)` at time `t`: bump the RX counters,
stamp `s_last_rx_ms`, record `EVT_FIRST_RX` once per mount cycle, and run the
fixed-offset DHCP-client heuristic on the frame bytes (Ethertype `0x0800`,
protocol 17, ports 68 → 67). -/
def netif_recv_callback (t : Nat) (frame : List Nat) (len : Nat) (s : NetSt) : NetSt :=
  let s1 := { s with rxPackets := s.rxPackets + 1
                     rxBytes := s.rxBytes + len
                     lastRxMs := t % W32 }
  let s2 := if ¬ s1.firstRxLogged then
              { s1 with firstRxLogged := true
                        events := s1.events ++ [(EVT_FIRST_RX, none)] }
            else s1
  if len ≥ 42 then
    let ethertype := (frame.getD 12 0) * 256 + frame.getD 13 0
    let proto := frame.getD 23 0
    let srcPort := (frame.getD 34 0) * 256 + frame.getD 35 0
    let dstPort := (frame.getD 36 0) * 256 + frame.getD 37 0
    if ethertype = 2048 ∧ proto = 17 ∧ srcPort = 68 ∧ dstPort = 67 then
      { s2 with events := s2.events ++ [(EVT_DHCP_DISCOVER_RX, none)] }
    else s2
  else s2

/-- Result of the bounded retry loop of `netif_transmit`: `sendOk i` is
whether the `i`-th `tinyusb_net_send_sync` call succeeds; the pair is the
number of attempts made and the final `ret`. -/
def txRetry (sendOk : Nat → Bool) : Nat × EspErr :=
  if sendOk 0 then (1, .ok)
  else if sendOk 1 then (2, .ok)
  else if sendOk 2 then (3, .ok)
  else (3, .fail)

/-- `netif_transmit(h, buffer, len)` — returns the `esp_err_t` handed back to
`esp-netif`, the number of `tinyusb_net_send_sync` attempts made, and the new
state.  It refuses (successfully, attempt-free) unless mounted with the link
up; otherwise it bumps the TX counters, records `EVT_FIRST_TX` once per
mount cycle, runs the DHCP-server heuristic (ports 67 → 68), then retries the
send up to 3 times — and returns `ESP_OK` to the caller regardless of the
loop's outcome. -/
def netif_transmit (sendOk : Nat → Bool) (frame : List Nat) (len : Nat) (s : NetSt) :
    EspErr × Nat × NetSt :=
  if ¬ (s.mounted ∧ s.linkUp) then (.ok, 0, s)
  else
    let s1 := { s with txPackets := s.txPackets + 1, txBytes := s.txBytes + len }
    let s2 := if ¬ s1.firstTxLogged then
                { s1 with firstTxLogged := true
                          events := s1.events ++ [(EVT_FIRST_TX, none)] }
              else s1
    let s3 :=
      if len ≥ 42 then
        let ethertype := (frame.getD 12 0) * 256 + frame.getD 13 0
        let proto := frame.getD 23 0
        let srcPort := (frame.getD 34 0) * 256 + frame.getD 35 0
        let dstPort := (frame.getD 36 0) * 256 + frame.getD 37 0
        if ethertype = 2048 ∧ proto = 17 ∧ srcPort = 67 ∧ dstPort = 68 then
          { s2 with events := s2.events ++ [(EVT_DHCP_OFFER_TX, none)] }
        else s2
      else s2
    (.ok, (txRetry sendOk).1, s3)

/-- Block 1 of the watchdog body (lines 299–303): when stack-ready and
mounted with the link down, kick the link (down, delay, up); `stackKicks`
instruments the block. -/
def wdKickBlock (s : NetSt) : NetSt :=
  if s.stackReady ∧ s.mounted ∧ ¬ s.linkUp then
    { usb_set_link_state true (some "stack_ready_kick_up")
        (usb_set_link_state false (some "stack_ready_kick_down") s) with
      stackKicks := s.stackKicks + 1 }
  else s

/-- Milliseconds block 1 sleeps (its `vTaskDelay` between down and up). -/
def wdKickDelay (s : NetSt) : Nat :=
  if s.stackReady ∧ s.mounted ∧ ¬ s.linkUp then USB_LINK_KICK_DELAY_MS else 0

/-- The recovery sequence (lines 317–345), fired at loop-head time `t`
(already reduced mod `2^32`); `t0 + dly` is the unreduced wall time at which
block 2 started, so the `now_ms()` re-read after the detach sleep is
`t0 + dly + USB_RECOVER_DETACH_MS`. -/
def wdRecoverSeq (t t0 dly : Nat) (s1 : NetSt) : NetSt :=
  let s2 := { s1 with recoverAttempts := s1.recoverAttempts + 1
                      lastRecoverMs := t }
  let s3 := usb_set_link_state false (some "no_rx_after_mount") s2
  let s4 := { s3 with mountMs := (t0 + dly + USB_RECOVER_DETACH_MS) % W32
                      lastRxMs := 0 }
  let s5 := usb_set_link_state true (some "kick_complete")
              (usb_set_link_state false (some "post_attach_kick_down") s4)
  if s5.backoffMs < USB_RECOVER_BACKOFF_MAX_MS then
    { s5 with backoffMs :=
        if s5.backoffMs * 2 > USB_RECOVER_BACKOFF_MAX_MS then
          USB_RECOVER_BACKOFF_MAX_MS
        else s5.backoffMs * 2 }
  else s5

/-- One iteration of `usb_watchdog_task`'s loop, entered at time `t0`
(`t = now_ms()` at the loop head).  Block 1 kicks the link when stack-ready
arrived while mounted with the link down; block 2 (lines 306–348) runs the
recovery sequence when stack-ready and mounted with no RX since a nonzero
mount stamp, the grace window elapsed, attempts remaining, and the backoff
interval expired (or no attempt yet). -/
def usb_watchdog_tick (t0 : Nat) (s : NetSt) : NetSt :=
  let t := t0 % W32
  let s1 := wdKickBlock s
  let dly := wdKickDelay s
  if s1.stackReady ∧ s1.mounted then
    if s1.lastRxMs = 0 ∧ s1.mountMs ≠ 0 then
      let sinceMount := u32sub t s1.mountMs
      let sinceRecover := if s1.lastRecoverMs = 0 then 0 else u32sub t s1.lastRecoverMs
      if sinceMount ≥ USB_NO_RX_GRACE_MS ∧
         s1.recoverAttempts < USB_RECOVER_MAX_ATTEMPTS ∧
         (s1.lastRecoverMs = 0 ∨ sinceRecover ≥ s1.backoffMs) then
        wdRecoverSeq t t0 dly s1
      else s1
    else s1
  else s1

/-- The exact condition under which a watchdog tick entered at time `t0`
runs the recovery sequence, written over the pre-tick state (block 1 changes
none of the fields block 2 reads). -/
def FireCond (t0 : Nat) (s : NetSt) : Prop :=
  s.stackReady = true ∧ s.mounted = true ∧ s.lastRxMs = 0 ∧ s.mountMs ≠ 0 ∧
  u32sub (t0 % W32) s.mountMs ≥ USB_NO_RX_GRACE_MS ∧
  s.recoverAttempts < USB_RECOVER_MAX_ATTEMPTS ∧
  (s.lastRecoverMs = 0 ∨ u32sub (t0 % W32) s.lastRecoverMs ≥ s.backoffMs)

/-- The states reachable from process start through the modelled transition
operations. -/
inductive ReachableNet : NetSt → Prop where
  | init : ReachableNet initNet
  | stackReady (s) : ReachableNet s → ReachableNet (stack_ready_set s)
  | mount (t s) : ReachableNet s → ReachableNet (tud_mount_cb t s)
  | umount (s) : ReachableNet s → ReachableNet (tud_umount_cb s)
  | suspend (w s) : ReachableNet s → ReachableNet (tud_suspend_cb w s)
  | resume (s) : ReachableNet s → ReachableNet (tud_resume_cb s)
  | tick (t s) : ReachableNet s → ReachableNet (usb_watchdog_tick t s)
  | recv (t frame len s) : ReachableNet s → ReachableNet (netif_recv_callback t frame len s)
  | transmit (f frame len s) : ReachableNet s →
      ReachableNet (netif_transmit f frame len s).2.2

/-- A reachable state in which the watchdog has raised the link between the
suspend and resume callbacks: stack ready at boot, mount at `t = 1000` ms,
suspend, then a watchdog tick at `t = 1100` ms. -/
def suspendedTickSt : NetSt :=
  usb_watchdog_tick 1100 (tud_suspend_cb true (tud_mount_cb 1000 (stack_ready_set initNet)))

/-! ## Theorems: LogStream ring buffer -/

theorem trunc_store (l : List Char) :
    l.take (if l.length > LOG_LINE_MAX_LEN - 1 then LOG_LINE_MAX_LEN - 1 else l.length)
      = trunc l := by
  unfold trunc
  split
  · rfl
  · rename_i h
    rw [List.take_length, List.take_of_length_le (by omega)]

theorem addLine_fields (l : List Char) (s : LogSt) (hl : l ≠ []) :
    addLine l s
      = { s with
          buffer := fun j => if j = s.writeIdx then trunc l else s.buffer j
          writeIdx := (s.writeIdx + 1) % LOG_BUFFER_LINES
          totalWritten := s.totalWritten + 1 } := by
  have hne : ¬ (l.length = 0) := by simpa using hl
  simp only [addLine, log_buffer_add, if_neg hne, trunc_store]

theorem addLine_readers (l : List Char) (s : LogSt) :
    (addLine l s).readerPos = s.readerPos ∧
    (addLine l s).readerActive = s.readerActive := by
  simp only [addLine, log_buffer_add]
  split <;> exact ⟨rfl, rfl⟩

theorem addAll_readers (ls : List (List Char)) :
    ∀ s : LogSt, (addAll ls s).readerPos = s.readerPos ∧
      (addAll ls s).readerActive = s.readerActive := by
  induction ls with
  | nil => intro s; exact ⟨rfl, rfl⟩
  | cons l rest ih =>
    intro s
    have h1 := addLine_readers l s
    have h2 := ih (addLine l s)
    simp only [addAll, List.foldl_cons] at *
    exact ⟨h2.1.trans h1.1, h2.2.trans h1.2⟩

theorem init_BufInv : BufInv [] log_buffer_init := by
  refine ⟨rfl, rfl, ?_⟩
  intro i hi
  simp at hi

theorem addLine_BufInv (ls : List (List Char)) (l : List Char) (s : LogSt)
    (hinv : BufInv ls s) (hl : l ≠ []) : BufInv (ls ++ [l]) (addLine l s) := by
  obtain ⟨h1, h2, h3⟩ := hinv
  rw [addLine_fields l s hl]
  refine ⟨?_, ?_, ?_⟩
  · simpa using h1
  · simp only [List.length_append, List.length_singleton]
    rw [h2]
    simp only [LOG_BUFFER_LINES]
    omega
  · intro i hi hle
    simp only [List.length_append, List.length_singleton] at hi hle
    show (if i % LOG_BUFFER_LINES = s.writeIdx then trunc l else s.buffer (i % LOG_BUFFER_LINES))
      = trunc ((ls ++ [l]).getD i [])
    by_cases he : i = ls.length
    · subst he
      rw [if_pos (by rw [h2])]
      simp [List.getD_append_right]
    · have hlt : i < ls.length := by omega
      have hmod : ¬ (i % LOG_BUFFER_LINES = s.writeIdx) := by
        rw [h2]
        simp only [LOG_BUFFER_LINES] at hle ⊢
        omega
      rw [if_neg hmod, h3 i hlt (by omega), List.getD_append _ _ _ _ hlt]

theorem addAll_BufInv (ls2 : List (List Char)) :
    ∀ (ls : List (List Char)) (s : LogSt), BufInv ls s → (∀ l ∈ ls2, l ≠ []) →
      BufInv (ls ++ ls2) (addAll ls2 s) := by
  induction ls2 with
  | nil =>
    intro ls s h _
    simpa [addAll] using h
  | cons l rest ih =>
    intro ls s h hne
    have h1 := addLine_BufInv ls l s h (hne l (by simp))
    have h2 := ih (ls ++ [l]) (addLine l s) h1 (fun x hx => hne x (by simp [hx]))
    simp only [addAll, List.foldl_cons] at h2 ⊢
    simpa [List.append_assoc] using h2

theorem dumpLen_cons (l : List Char) (rest : List (List Char)) :
    dumpLen (l :: rest) = l.length + 1 + dumpLen rest := by
  simp [dumpLen]

theorem dumpGo_spec (buf : Nat → List Char) (start bufSize : Nat)
    (LS : List (List Char)) :
    ∀ (i written : Nat),
      (∀ j, j < LS.length → buf ((start + (i + j)) % LOG_BUFFER_LINES) = LS.getD j []) →
      written + dumpLen LS + 2 ≤ bufSize →
      dumpGo buf start bufSize i LS.length written
        = (LS.map (fun l => l ++ ['\n'])).flatten := by
  induction LS with
  | nil =>
    intro i written _ _
    simp [dumpGo]
  | cons l rest ih =>
    intro i written hbuf hsp
    rw [dumpLen_cons] at hsp
    have hline : buf ((start + i) % LOG_BUFFER_LINES) = l := by
      have h0 := hbuf 0 (by simp)
      simpa using h0
    have hb : ∀ j, j < rest.length →
        buf ((start + (i + 1 + j)) % LOG_BUFFER_LINES) = rest.getD j [] := by
      intro j hj
      have hj1 := hbuf (j + 1) (by simpa using Nat.succ_lt_succ hj)
      rw [show i + 1 + j = i + (j + 1) from by omega]
      simpa using hj1
    show dumpGo buf start bufSize i (rest.length + 1) written = _
    rw [dumpGo, if_pos (by omega), hline, if_neg (by omega),
        ih (i + 1) (written + l.length + 1) hb (by omega)]
    simp

/-- C2: after appending `N > LOG_BUFFER_LINES` non-empty lines into a fresh
buffer, `log_buffer_get_all` with an output buffer large enough for the full
dump emits exactly the most recent `LOG_BUFFER_LINES` lines (as stored, i.e.
truncated to the slot payload size), oldest first, in write order, each
followed by a newline. -/
theorem C2_ring_dump (ls : List (List Char)) (bufSize : Nat)
    (hne : ∀ l ∈ ls, l ≠ []) (hN : LOG_BUFFER_LINES < ls.length)
    (hbuf : dumpLen ((ls.map trunc).drop (ls.length - LOG_BUFFER_LINES)) + 2 ≤ bufSize) :
    log_buffer_get_all (addAll ls log_buffer_init) bufSize
      = (((ls.map trunc).drop (ls.length - LOG_BUFFER_LINES)).map
           (fun l => l ++ ['\n'])).flatten := by
  obtain ⟨h1, h2, h3⟩ : BufInv ls (addAll ls log_buffer_init) := by
    have h := addAll_BufInv ls [] log_buffer_init init_BufInv hne
    simpa using h
  have hL : ((ls.map trunc).drop (ls.length - LOG_BUFFER_LINES)).length
      = LOG_BUFFER_LINES := by
    simp only [List.length_drop, List.length_map]
    omega
  unfold log_buffer_get_all
  rw [if_neg (by omega : ¬ (bufSize = 0)), h1,
      if_neg (by omega : ¬ (ls.length < LOG_BUFFER_LINES)),
      if_pos (by decide : (0 : Nat) < LOG_BUFFER_LINES),
      if_neg (by omega : ¬ (ls.length ≤ LOG_BUFFER_LINES))]
  conv_lhs => rw [← hL]
  apply dumpGo_spec
  · intro j hj
    rw [hL] at hj
    have hidx : (addAll ls log_buffer_init).writeIdx + (0 + j)
        = ls.length % LOG_BUFFER_LINES + j := by
      rw [h2]
      omega
    rw [hidx]
    have hmod : (ls.length % LOG_BUFFER_LINES + j) % LOG_BUFFER_LINES
        = (ls.length - LOG_BUFFER_LINES + j) % LOG_BUFFER_LINES := by
      simp only [LOG_BUFFER_LINES] at hN hj ⊢
      omega
    rw [hmod, h3 (ls.length - LOG_BUFFER_LINES + j) (by omega) (by omega)]
    have hdrop : ((ls.map trunc).drop (ls.length - LOG_BUFFER_LINES)).getD j []
        = (ls.map trunc).getD (ls.length - LOG_BUFFER_LINES + j) [] := by
      simp [List.getD_eq_getElem?_getD, List.getElem?_drop]
    rw [hdrop]
    have hmap := List.getD_map (l := ls) (d := ([] : List Char))
      (n := ls.length - LOG_BUFFER_LINES + j) trunc
    simpa [trunc] using hmap.symm
  · simpa using hbuf

theorem C2_ring_dump_witness :
    log_buffer_get_all (addAll (List.replicate 101 ['a']) log_buffer_init) 300
      = ((((List.replicate 101 ['a']).map trunc).drop
            ((List.replicate 101 ['a']).length - LOG_BUFFER_LINES)).map
           (fun l => l ++ ['\n'])).flatten :=
  C2_ring_dump (List.replicate 101 ['a']) 300
    (by
      intro l hl
      rw [List.eq_of_mem_replicate hl]
      simp)
    (by decide)
    (by decide)

theorem alloc_of_inactive (s : LogSt) (h : s.readerActive 0 = false) :
    log_buffer_alloc_reader s
      = (some 0,
         { s with
           readerActive := fun j => if j = 0 then true else s.readerActive j
           readerPos := fun j => if j = 0 then s.totalWritten else s.readerPos j }) := by
  unfold log_buffer_alloc_reader
  rw [if_pos (by simp [h])]

theorem read_some_char (id : Nat) (s : LogSt)
    (hid : ¬ (id ≥ MAX_READERS))
    (hcond : s.readerActive id = true ∧ s.readerPos id < s.totalWritten) :
    log_buffer_read id s
      = (some (s.buffer ((s.writeIdx + LOG_BUFFER_LINES -
             (if s.totalWritten - s.readerPos id > LOG_BUFFER_LINES then LOG_BUFFER_LINES
              else s.totalWritten - s.readerPos id)) % LOG_BUFFER_LINES)),
         { s with readerPos := fun j => if j = id then
             (if s.totalWritten - s.readerPos id > LOG_BUFFER_LINES then
                s.totalWritten - LOG_BUFFER_LINES
              else s.readerPos id) + 1
             else s.readerPos j }) := by
  by_cases h3 : s.totalWritten - s.readerPos id > LOG_BUFFER_LINES <;>
    simp [log_buffer_read, hid, hcond, h3]

theorem read_backlog_bound (id : Nat) (s : LogSt) :
    (log_buffer_read id s).1.isSome = true →
    (log_buffer_read id s).2.totalWritten - (log_buffer_read id s).2.readerPos id
      ≤ LOG_BUFFER_LINES := by
  by_cases hid : id ≥ MAX_READERS
  · unfold log_buffer_read
    rw [if_pos hid]
    simp
  · by_cases hcond : s.readerActive id = true ∧ s.readerPos id < s.totalWritten
    · intro _
      rw [read_some_char id s hid hcond]
      by_cases h3 : s.totalWritten - s.readerPos id > LOG_BUFFER_LINES <;>
        · simp only [h3, if_true, if_false, ite_true, ite_false]
          simp only [LOG_BUFFER_LINES] at h3 ⊢
          have h2 := hcond.2
          omega
    · unfold log_buffer_read
      rw [if_neg hid, if_neg hcond]
      simp

theorem C3_scenario_aux (ls0 ls1 : List (List Char)) (s1 : LogSt)
    (hinv : BufInv ls0 s1)
    (hact : s1.readerActive 0 = true)
    (hpos : s1.readerPos 0 = ls0.length)
    (hne1 : ∀ l ∈ ls1, l ≠ [])
    (hlen1 : ls1.length = LOG_BUFFER_LINES + 5) :
    (log_buffer_read 0 (addAll ls1 s1)).1 = some (trunc (ls1.getD 5 [])) ∧
    (log_buffer_read 0 (addAll ls1 s1)).2.readerPos 0 = ls0.length + 6 ∧
    (addAll ls1 s1).totalWritten
      - (log_buffer_read 0 (addAll ls1 s1)).2.readerPos 0 ≤ LOG_BUFFER_LINES := by
  have hlen2 : ls1.length = 105 := by simpa [LOG_BUFFER_LINES] using hlen1
  obtain ⟨k1, k2, k3⟩ : BufInv (ls0 ++ ls1) (addAll ls1 s1) :=
    addAll_BufInv ls1 ls0 s1 hinv hne1
  have hreaders := addAll_readers ls1 s1
  have hact2 : (addAll ls1 s1).readerActive 0 = true := by
    rw [hreaders.2, hact]
  have hpos2 : (addAll ls1 s1).readerPos 0 = ls0.length := by
    rw [hreaders.1, hpos]
  have htot2 : (addAll ls1 s1).totalWritten = ls0.length + ls1.length := by
    rw [k1]
    simp
  have hcond : (addAll ls1 s1).readerActive 0 = true ∧
      (addAll ls1 s1).readerPos 0 < (addAll ls1 s1).totalWritten := by
    refine ⟨hact2, ?_⟩
    rw [hpos2, htot2]
    omega
  have hfar : (addAll ls1 s1).totalWritten - (addAll ls1 s1).readerPos 0
      > LOG_BUFFER_LINES := by
    rw [hpos2, htot2]
    simp only [LOG_BUFFER_LINES]
    omega
  rw [read_some_char 0 _ (by decide) hcond]
  refine ⟨?_, ?_, ?_⟩
  · simp only [hfar, if_true, ite_true]
    have hidx : ((addAll ls1 s1).writeIdx + LOG_BUFFER_LINES - LOG_BUFFER_LINES)
          % LOG_BUFFER_LINES
        = (ls0.length + 5) % LOG_BUFFER_LINES := by
      rw [k2]
      simp only [List.length_append, LOG_BUFFER_LINES]
      omega
    rw [hidx, k3 (ls0.length + 5)
          (by simp only [List.length_append]; omega)
          (by simp only [List.length_append]; omega),
        List.getD_append_right ls0 ls1 _ _ (by omega),
        show ls0.length + 5 - ls0.length = 5 from by omega]
  · simp only [hfar, if_true, ite_true, if_pos rfl]
    rw [htot2]
    simp only [LOG_BUFFER_LINES]
    omega
  · simp only [hfar, if_true, ite_true, if_pos rfl]
    rw [htot2]
    simp only [LOG_BUFFER_LINES]
    omega

/-- C3: a reader allocated when `totalWritten = ls0.length`, after
`LOG_BUFFER_LINES + 5` further lines are appended with no intervening read,
reads the oldest line still resident — the line at global position
`totalWritten - LOG_BUFFER_LINES` (the sixth of the new lines), not the
oldest ever written — and its position then stands one past that line; and
after any read that returns a line, a reader's unread backlog is at most
`LOG_BUFFER_LINES`. -/
theorem C3_reader_catch_up (ls0 ls1 : List (List Char)) (s : LogSt) (id : Nat)
    (hne0 : ∀ l ∈ ls0, l ≠ []) (hne1 : ∀ l ∈ ls1, l ≠ [])
    (hlen1 : ls1.length = LOG_BUFFER_LINES + 5) :
    ((log_buffer_alloc_reader (addAll ls0 log_buffer_init)).1 = some 0 ∧
     (log_buffer_read 0
        (addAll ls1 (log_buffer_alloc_reader (addAll ls0 log_buffer_init)).2)).1
       = some (trunc (ls1.getD 5 [])) ∧
     (log_buffer_read 0
        (addAll ls1 (log_buffer_alloc_reader (addAll ls0 log_buffer_init)).2)).2.readerPos 0
       = ls0.length + 6 ∧
     (addAll ls1 (log_buffer_alloc_reader (addAll ls0 log_buffer_init)).2).totalWritten
       - (log_buffer_read 0
            (addAll ls1 (log_buffer_alloc_reader (addAll ls0 log_buffer_init)).2)).2.readerPos 0
       ≤ LOG_BUFFER_LINES) ∧
    ((log_buffer_read id s).1.isSome = true →
      (log_buffer_read id s).2.totalWritten - (log_buffer_read id s).2.readerPos id
        ≤ LOG_BUFFER_LINES) := by
  refine ⟨?_, read_backlog_bound id s⟩
  obtain ⟨g1, g2, g3⟩ : BufInv ls0 (addAll ls0 log_buffer_init) := by
    simpa using addAll_BufInv ls0 [] log_buffer_init init_BufInv hne0
  have hact0 : (addAll ls0 log_buffer_init).readerActive 0 = false := by
    rw [(addAll_readers ls0 log_buffer_init).2]
    rfl
  rw [alloc_of_inactive _ hact0]
  have haux := C3_scenario_aux ls0 ls1
    { addAll ls0 log_buffer_init with
      readerActive := fun j => if j = 0 then true
                      else (addAll ls0 log_buffer_init).readerActive j
      readerPos := fun j => if j = 0 then (addAll ls0 log_buffer_init).totalWritten
                      else (addAll ls0 log_buffer_init).readerPos j }
    ⟨g1, g2, g3⟩ (by simp) (by simpa using g1) hne1 hlen1
  exact ⟨rfl, haux.1, haux.2.1, haux.2.2⟩

theorem C3_reader_catch_up_witness :
    ((log_buffer_alloc_reader (addAll [] log_buffer_init)).1 = some 0 ∧
     (log_buffer_read 0
        (addAll (List.replicate 105 ['a'])
          (log_buffer_alloc_reader (addAll [] log_buffer_init)).2)).1
       = some (trunc ((List.replicate 105 ['a']).getD 5 [])) ∧
     (log_buffer_read 0
        (addAll (List.replicate 105 ['a'])
          (log_buffer_alloc_reader (addAll [] log_buffer_init)).2)).2.readerPos 0
       = List.length ([] : List (List Char)) + 6 ∧
     (addAll (List.replicate 105 ['a'])
        (log_buffer_alloc_reader (addAll [] log_buffer_init)).2).totalWritten
       - (log_buffer_read 0
            (addAll (List.replicate 105 ['a'])
              (log_buffer_alloc_reader (addAll [] log_buffer_init)).2)).2.readerPos 0
       ≤ LOG_BUFFER_LINES) ∧
    ((log_buffer_read 2 log_buffer_init).1.isSome = true →
      (log_buffer_read 2 log_buffer_init).2.totalWritten
        - (log_buffer_read 2 log_buffer_init).2.readerPos 2
        ≤ LOG_BUFFER_LINES) :=
  C3_reader_catch_up [] (List.replicate 105 ['a']) log_buffer_init 2
    (by simp)
    (by
      intro l hl
      rw [List.eq_of_mem_replicate hl]
      simp)
    (by decide)

/-! ## Theorems: EventLog -/

theorem event_log_has_record_mono (ty t2 ty2 : Nat) (d2 : Option (List Char))
    (s : EventLogSt) (h : event_log_has ty s = true) :
    event_log_has ty (event_log_record t2 ty2 d2 s) = true := by
  by_cases hty : EVT_COUNT ≤ ty
  · simp [event_log_has, hty] at h
  · by_cases hty2 : EVT_COUNT ≤ ty2
    · simpa [event_log_record, hty2] using h
    · simp only [event_log_has, hty, if_false] at h ⊢
      simp only [event_log_record, hty2, if_false]
      by_cases he : ty = ty2 <;> simp [he, h]

theorem event_log_has_applyRecords_mono (ty : Nat)
    (ops : List (Nat × Nat × Option (List Char))) :
    ∀ s : EventLogSt, event_log_has ty s = true →
      event_log_has ty (applyRecords ops s) = true := by
  induction ops with
  | nil => intro s h; simpa [applyRecords] using h
  | cons op rest ih =>
    intro s h
    simp only [applyRecords, List.foldl_cons] at *
    exact ih _ (event_log_has_record_mono ty op.1 op.2.1 op.2.2 s h)

/-- C6: once `event_log_record(ty, …)` has run for an in-range type, every
later `event_log_has(ty)` call returns true no matter which further records
are made; and once the record sequence is full a new record is not appended
(while the flag table still updates, which the first conjunct covers). -/
theorem C6_sticky_occurrence (t ty : Nat) (d : Option (List Char)) (s : EventLogSt)
    (ops : List (Nat × Nat × Option (List Char))) (hty : ty < EVT_COUNT) :
    event_log_has ty (applyRecords ops (event_log_record t ty d s)) = true ∧
    (MAX_EVENTS ≤ s.events.length → (event_log_record t ty d s).events = s.events) := by
  have hty' : ¬ EVT_COUNT ≤ ty := Nat.not_le.mpr hty
  constructor
  · apply event_log_has_applyRecords_mono
    simp [event_log_has, event_log_record, hty']
  · intro hfull
    simp [event_log_record, hty', Nat.not_lt.mpr hfull]

theorem C6_sticky_occurrence_witness :
    event_log_has EVT_USB_MOUNTED
      (applyRecords (List.replicate 40 (7, EVT_NCM_LINK_UP, none))
        (event_log_record 3 EVT_USB_MOUNTED none event_log_init)) = true ∧
    (MAX_EVENTS ≤ (applyRecords (List.replicate 30 (0, EVT_FIRST_RX, none)) event_log_init).events.length →
      (event_log_record 3 EVT_USB_MOUNTED none
        (applyRecords (List.replicate 30 (0, EVT_FIRST_RX, none)) event_log_init)).events
        = (applyRecords (List.replicate 30 (0, EVT_FIRST_RX, none)) event_log_init).events) :=
  ⟨(C6_sticky_occurrence 3 EVT_USB_MOUNTED none event_log_init
      (List.replicate 40 (7, EVT_NCM_LINK_UP, none)) (by decide)).1,
   (C6_sticky_occurrence 3 EVT_USB_MOUNTED none
      (applyRecords (List.replicate 30 (0, EVT_FIRST_RX, none)) event_log_init)
      [] (by decide)).2⟩

/-- C7: recording with a detail string strictly longer than the maximum
storable detail length (`MAX_DETAIL_LEN - 1` bytes — the 64-byte field keeps
one byte for the terminator) leaves every existing record intact and appends
one record whose stored detail is exactly the maximum-length prefix of the
given string. -/
theorem C7_detail_truncation (t ty : Nat) (d : List Char) (s : EventLogSt)
    (hty : ty < EVT_COUNT) (hroom : s.events.length < MAX_EVENTS)
    (hlen : MAX_DETAIL_LEN - 1 < d.length) :
    (event_log_record t ty (some d) s).events
      = s.events ++ [{ timestamp_ms := t % W32, etype := ty
                       detail := d.take (MAX_DETAIL_LEN - 1) }] ∧
    (d.take (MAX_DETAIL_LEN - 1)).length = MAX_DETAIL_LEN - 1 := by
  constructor
  · simp [event_log_record, Nat.not_le.mpr hty, hroom]
  · simp only [List.length_take]
    omega

theorem C7_detail_truncation_witness :
    (event_log_record 9 EVT_USB_SUSPENDED (some (List.replicate 70 'x')) event_log_init).events
      = event_log_init.events
        ++ [{ timestamp_ms := 9 % W32, etype := EVT_USB_SUSPENDED
              detail := (List.replicate 70 'x').take (MAX_DETAIL_LEN - 1) }] ∧
    ((List.replicate 70 'x').take (MAX_DETAIL_LEN - 1)).length = MAX_DETAIL_LEN - 1 :=
  C7_detail_truncation 9 EVT_USB_SUSPENDED (List.replicate 70 'x') event_log_init
    (by decide) (by decide) (by decide)

/-- C10: an out-of-range event type (`type >= EVT_COUNT`) makes
`event_log_record` leave the whole state (record sequence and occurrence
table) unchanged and makes `event_log_has` return false; both reject the
type before touching any table. -/
theorem C10_oob_event_type (t ty : Nat) (d : Option (List Char)) (s : EventLogSt)
    (h : EVT_COUNT ≤ ty) :
    event_log_record t ty d s = s ∧ event_log_has ty s = false := by
  simp [event_log_record, event_log_has, h]

theorem C10_oob_event_type_witness :
    event_log_record 4 EVT_COUNT (some ['a']) event_log_init = event_log_init ∧
    event_log_has EVT_COUNT event_log_init = false :=
  C10_oob_event_type 4 EVT_COUNT (some ['a']) event_log_init (by decide)

/-! ## Theorems: LogStream frame condition -/

/-- C9: `log_buffer_add` with a NULL line pointer or a zero length is a
complete no-op — the state (buffer slots, write index, `totalWritten`,
readers) is returned unchanged. -/
theorem C9_add_rejects_null_and_empty (l : List Char) (len : Nat) (s : LogSt) :
    log_buffer_add none len s = s ∧ log_buffer_add (some l) 0 s = s :=
  ⟨rfl, by simp [log_buffer_add]⟩

/-! ## Theorems: transmit path -/

/-- C5: `netif_transmit` returns success without a single
`tinyusb_net_send_sync` attempt unless mounted with the link up; otherwise
it makes at most 3 attempts and still hands `ESP_OK` back to the caller,
even when every attempt fails (in which case all 3 are made). -/
theorem C5_transmit_policy (f : Nat → Bool) (frame : List Nat) (len : Nat) (s : NetSt) :
    (¬ (s.mounted = true ∧ s.linkUp = true) →
        netif_transmit f frame len s = (.ok, 0, s)) ∧
    (netif_transmit f frame len s).1 = .ok ∧
    (netif_transmit f frame len s).2.1 ≤ 3 ∧
    (s.mounted = true → s.linkUp = true → (∀ i, f i = false) →
        (netif_transmit f frame len s).2.1 = 3) := by
  refine ⟨fun h => by simp [netif_transmit, h], ?_, ?_, ?_⟩
  · by_cases h : s.mounted = true ∧ s.linkUp = true <;>
      simp [netif_transmit, h]
  · have h3 : (txRetry f).1 ≤ 3 := by
      simp only [txRetry]
      split
      · simp
      · split
        · simp
        · split <;> simp
    by_cases h : s.mounted = true ∧ s.linkUp = true <;>
      simp [netif_transmit, h, h3]
  · intro hm hl hf
    simp [netif_transmit, hm, hl, txRetry, hf]

theorem C5_transmit_policy_witness :
    ((netif_transmit (fun _ => false) [] 64
        { initNet with mounted := true, linkUp := true }).1 = .ok ∧
     (netif_transmit (fun _ => false) [] 64
        { initNet with mounted := true, linkUp := true }).2.1 = 3) ∧
    netif_transmit (fun _ => false) [] 64 initNet = (.ok, 0, initNet) :=
  ⟨⟨(C5_transmit_policy (fun _ => false) [] 64
       { initNet with mounted := true, linkUp := true }).2.1,
    (C5_transmit_policy (fun _ => false) [] 64
       { initNet with mounted := true, linkUp := true }).2.2.2 rfl rfl (fun _ => rfl)⟩,
   (C5_transmit_policy (fun _ => false) [] 64 initNet).1 (by simp [initNet])⟩

/-! ## Theorems: link state controller and watchdog -/

theorem kickBlock_preserves (s : NetSt) :
    (wdKickBlock s).mounted = s.mounted ∧
    (wdKickBlock s).stackReady = s.stackReady ∧
    (wdKickBlock s).suspended = s.suspended ∧
    (wdKickBlock s).lastRxMs = s.lastRxMs ∧
    (wdKickBlock s).mountMs = s.mountMs ∧
    (wdKickBlock s).lastRecoverMs = s.lastRecoverMs ∧
    (wdKickBlock s).backoffMs = s.backoffMs ∧
    (wdKickBlock s).recoverAttempts = s.recoverAttempts := by
  simp only [wdKickBlock, usb_set_link_state]
  split <;> simp

theorem kickBlock_stackKicks (s : NetSt) :
    (wdKickBlock s).stackKicks
      = if s.stackReady = true ∧ s.mounted = true ∧ s.linkUp = false then
          s.stackKicks + 1
        else s.stackKicks := by
  by_cases h1 : s.stackReady = true <;> by_cases h2 : s.mounted = true <;>
    by_cases h3 : s.linkUp = true <;>
    simp [wdKickBlock, usb_set_link_state, h1, h2, h3]

theorem kickBlock_linkUp (s : NetSt) :
    (wdKickBlock s).linkUp
      = if s.stackReady = true ∧ s.mounted = true ∧ s.linkUp = false then
          true
        else s.linkUp := by
  by_cases h1 : s.stackReady = true <;> by_cases h2 : s.mounted = true <;>
    by_cases h3 : s.linkUp = true <;>
    simp [wdKickBlock, usb_set_link_state, h1, h2, h3]

theorem recoverSeq_preserves (t t0 dly : Nat) (s : NetSt) :
    (wdRecoverSeq t t0 dly s).mounted = s.mounted ∧
    (wdRecoverSeq t t0 dly s).stackReady = s.stackReady ∧
    (wdRecoverSeq t t0 dly s).suspended = s.suspended ∧
    (wdRecoverSeq t t0 dly s).stackKicks = s.stackKicks := by
  simp only [wdRecoverSeq, usb_set_link_state]
  split <;> simp

theorem recoverSeq_effects (t t0 dly : Nat) (s : NetSt) :
    (wdRecoverSeq t t0 dly s).recoverAttempts = s.recoverAttempts + 1 ∧
    (wdRecoverSeq t t0 dly s).lastRecoverMs = t ∧
    (wdRecoverSeq t t0 dly s).linkUp = true ∧
    (wdRecoverSeq t t0 dly s).backoffMs
      = (if s.backoffMs < USB_RECOVER_BACKOFF_MAX_MS then
           min (s.backoffMs * 2) USB_RECOVER_BACKOFF_MAX_MS
         else s.backoffMs) := by
  simp only [wdRecoverSeq, usb_set_link_state]
  split <;> (try split) <;> (simp_all; try omega)

/-- The watchdog tick either leaves the state as `wdKickBlock s` or runs the
recovery sequence on it (and the latter only when stack-ready and mounted). -/
theorem tick_cases (t0 : Nat) (s : NetSt) :
    usb_watchdog_tick t0 s = wdKickBlock s ∨
    (usb_watchdog_tick t0 s
        = wdRecoverSeq (t0 % W32) t0 (wdKickDelay s) (wdKickBlock s) ∧
     s.stackReady = true ∧ s.mounted = true) := by
  by_cases h1 : (wdKickBlock s).stackReady ∧ (wdKickBlock s).mounted
  · by_cases h2 : (wdKickBlock s).lastRxMs = 0 ∧ (wdKickBlock s).mountMs ≠ 0
    · by_cases h3 : u32sub (t0 % W32) (wdKickBlock s).mountMs ≥ USB_NO_RX_GRACE_MS ∧
          (wdKickBlock s).recoverAttempts < USB_RECOVER_MAX_ATTEMPTS ∧
          ((wdKickBlock s).lastRecoverMs = 0 ∨
            (if (wdKickBlock s).lastRecoverMs = 0 then 0
             else u32sub (t0 % W32) (wdKickBlock s).lastRecoverMs)
              ≥ (wdKickBlock s).backoffMs)
      · right
        have hp := kickBlock_preserves s
        refine ⟨?_, ?_, ?_⟩
        · simp only [usb_watchdog_tick]
          rw [if_pos h1, if_pos h2, if_pos h3]
        · rw [← hp.2.1]; exact h1.1
        · rw [← hp.1]; exact h1.2
      · left
        simp only [usb_watchdog_tick]
        rw [if_pos h1, if_pos h2, if_neg h3]
    · left
      simp only [usb_watchdog_tick]
      rw [if_pos h1, if_neg h2]
  · left
    simp only [usb_watchdog_tick]
    rw [if_neg h1]

theorem tick_preserves_flags (t : Nat) (s : NetSt) :
    (usb_watchdog_tick t s).mounted = s.mounted ∧
    (usb_watchdog_tick t s).stackReady = s.stackReady ∧
    (usb_watchdog_tick t s).suspended = s.suspended := by
  rcases tick_cases t s with h | ⟨h, _, _⟩
  · rw [h]
    exact ⟨(kickBlock_preserves s).1, (kickBlock_preserves s).2.1,
           (kickBlock_preserves s).2.2.1⟩
  · rw [h]
    refine ⟨?_, ?_, ?_⟩
    · rw [(recoverSeq_preserves _ _ _ _).1]; exact (kickBlock_preserves s).1
    · rw [(recoverSeq_preserves _ _ _ _).2.1]; exact (kickBlock_preserves s).2.1
    · rw [(recoverSeq_preserves _ _ _ _).2.2.1]; exact (kickBlock_preserves s).2.2.1

theorem tick_stackKicks_eq (t : Nat) (s : NetSt) :
    (usb_watchdog_tick t s).stackKicks
      = if s.stackReady = true ∧ s.mounted = true ∧ s.linkUp = false then
          s.stackKicks + 1
        else s.stackKicks := by
  rcases tick_cases t s with h | ⟨h, _, _⟩
  · rw [h]; exact kickBlock_stackKicks s
  · rw [h, (recoverSeq_preserves _ _ _ _).2.2.2]
    exact kickBlock_stackKicks s

theorem tick_linkUp_src (t : Nat) (s : NetSt) :
    (usb_watchdog_tick t s).linkUp = true →
      (s.stackReady = true ∧ s.mounted = true) ∨ s.linkUp = true := by
  rcases tick_cases t s with h | ⟨h, hsr, hm⟩
  · rw [h, kickBlock_linkUp]
    split
    · rename_i hc
      exact fun _ => Or.inl ⟨hc.1, hc.2.1⟩
    · exact fun hl => Or.inr hl
  · exact fun _ => Or.inl ⟨hsr, hm⟩

theorem tick_linkUp_of_linkUp (t : Nat) (s : NetSt) (h : s.linkUp = true) :
    (usb_watchdog_tick t s).linkUp = true := by
  rcases tick_cases t s with hc | ⟨hc, _, _⟩ <;> rw [hc]
  · rw [kickBlock_linkUp]
    split <;> simp_all
  · exact (recoverSeq_effects _ _ _ _).2.2.1

theorem resume_fields (s : NetSt) :
    (tud_resume_cb s).mounted = s.mounted ∧
    (tud_resume_cb s).stackReady = s.stackReady ∧
    ((tud_resume_cb s).linkUp = true →
      (s.mounted = true ∧ s.stackReady = true) ∨ s.linkUp = true) := by
  by_cases hc : s.mounted = true ∧ s.stackReady = true <;>
    simp [tud_resume_cb, usb_set_link_state, hc]

theorem recv_preserves_link_fields (t : Nat) (frame : List Nat) (len : Nat) (s : NetSt) :
    (netif_recv_callback t frame len s).mounted = s.mounted ∧
    (netif_recv_callback t frame len s).stackReady = s.stackReady ∧
    (netif_recv_callback t frame len s).linkUp = s.linkUp ∧
    (netif_recv_callback t frame len s).suspended = s.suspended := by
  simp only [netif_recv_callback]
  split <;> (try split) <;> (try split) <;> simp_all

theorem transmit_preserves_link_fields (f : Nat → Bool) (frame : List Nat) (len : Nat)
    (s : NetSt) :
    ((netif_transmit f frame len s).2.2).mounted = s.mounted ∧
    ((netif_transmit f frame len s).2.2).stackReady = s.stackReady ∧
    ((netif_transmit f frame len s).2.2).linkUp = s.linkUp ∧
    ((netif_transmit f frame len s).2.2).suspended = s.suspended := by
  simp only [netif_transmit]
  split <;> (try split) <;> (try split) <;> (try split) <;> simp_all

theorem u32sub_of_le (a b : Nat) (hba : b ≤ a) (ha : a < W32) : u32sub a b = a - b := by
  have hb : b < W32 := lt_of_le_of_lt hba ha
  unfold u32sub
  rw [Nat.mod_eq_of_lt ha, Nat.mod_eq_of_lt hb]
  have h1 : a + (W32 - b) = (a - b) + W32 := by omega
  rw [h1, Nat.add_mod_right, Nat.mod_eq_of_lt (by omega)]

theorem tick_eq_fire (t0 : Nat) (s : NetSt) (h : FireCond t0 s) :
    usb_watchdog_tick t0 s
      = wdRecoverSeq (t0 % W32) t0 (wdKickDelay s) (wdKickBlock s) := by
  obtain ⟨h1, h2, h3, h4, h5, h6, h7⟩ := h
  have hp := kickBlock_preserves s
  have c1 : ((wdKickBlock s).stackReady : Prop) ∧ ((wdKickBlock s).mounted : Prop) := by
    rw [hp.1, hp.2.1]
    exact ⟨h1, h2⟩
  have c2 : (wdKickBlock s).lastRxMs = 0 ∧ (wdKickBlock s).mountMs ≠ 0 := by
    rw [hp.2.2.2.1, hp.2.2.2.2.1]
    exact ⟨h3, h4⟩
  have c3 : u32sub (t0 % W32) (wdKickBlock s).mountMs ≥ USB_NO_RX_GRACE_MS ∧
      (wdKickBlock s).recoverAttempts < USB_RECOVER_MAX_ATTEMPTS ∧
      ((wdKickBlock s).lastRecoverMs = 0 ∨
        (if (wdKickBlock s).lastRecoverMs = 0 then 0
         else u32sub (t0 % W32) (wdKickBlock s).lastRecoverMs)
          ≥ (wdKickBlock s).backoffMs) := by
    rw [hp.2.2.2.2.1, hp.2.2.2.2.2.1, hp.2.2.2.2.2.2.1, hp.2.2.2.2.2.2.2]
    refine ⟨h5, h6, ?_⟩
    by_cases hz : s.lastRecoverMs = 0
    · exact Or.inl hz
    · rcases h7 with h7 | h7
      · exact absurd h7 hz
      · right
        rw [if_neg hz]
        exact h7
  simp only [usb_watchdog_tick]
  rw [if_pos c1, if_pos c2, if_pos c3]

theorem tick_eq_no_fire (t0 : Nat) (s : NetSt) (h : ¬ FireCond t0 s) :
    usb_watchdog_tick t0 s = wdKickBlock s := by
  have hp := kickBlock_preserves s
  by_cases c1 : ((wdKickBlock s).stackReady : Prop) ∧ ((wdKickBlock s).mounted : Prop)
  · by_cases c2 : (wdKickBlock s).lastRxMs = 0 ∧ (wdKickBlock s).mountMs ≠ 0
    · by_cases c3 : u32sub (t0 % W32) (wdKickBlock s).mountMs ≥ USB_NO_RX_GRACE_MS ∧
          (wdKickBlock s).recoverAttempts < USB_RECOVER_MAX_ATTEMPTS ∧
          ((wdKickBlock s).lastRecoverMs = 0 ∨
            (if (wdKickBlock s).lastRecoverMs = 0 then 0
             else u32sub (t0 % W32) (wdKickBlock s).lastRecoverMs)
              ≥ (wdKickBlock s).backoffMs)
      · exfalso
        apply h
        rw [hp.1, hp.2.1] at c1
        rw [hp.2.2.2.1, hp.2.2.2.2.1] at c2
        rw [hp.2.2.2.2.1, hp.2.2.2.2.2.1, hp.2.2.2.2.2.2.1, hp.2.2.2.2.2.2.2] at c3
        refine ⟨c1.1, c1.2, c2.1, c2.2, c3.1, c3.2.1, ?_⟩
        rcases c3.2.2 with hz | hge
        · exact Or.inl hz
        · by_cases hz : s.lastRecoverMs = 0
          · exact Or.inl hz
          · rw [if_neg hz] at hge
            exact Or.inr hge
      · simp only [usb_watchdog_tick]
        rw [if_pos c1, if_pos c2, if_neg c3]
    · simp only [usb_watchdog_tick]
      rw [if_pos c1, if_neg c2]
  · simp only [usb_watchdog_tick]
    rw [if_neg c1]

/-- C4: under persistent mounted + stack-ready + no reception, a tick sooner
than the backoff interval after the previous recovery attempt leaves
`recoverAttempts` unchanged; a tick with the grace window elapsed, attempts
remaining and the backoff expired (or never attempted) increments it by
exactly one, stamps the attempt and doubles the backoff interval capped at
the ceiling; once the maximum (5) is reached no tick changes the counter;
and a mount resets both counter and backoff. -/
theorem C4_recovery_backoff (t0 t2 : Nat) (s : NetSt)
    (hready : s.stackReady = true) (hmnt : s.mounted = true)
    (hrx : s.lastRxMs = 0) (ht : t0 < W32) :
    (s.lastRecoverMs ≠ 0 → s.lastRecoverMs ≤ t0 →
        t0 - s.lastRecoverMs < s.backoffMs →
        (usb_watchdog_tick t0 s).recoverAttempts = s.recoverAttempts) ∧
    (s.mountMs ≠ 0 → s.mountMs ≤ t0 →
        USB_NO_RX_GRACE_MS ≤ t0 - s.mountMs →
        s.recoverAttempts < USB_RECOVER_MAX_ATTEMPTS →
        (s.lastRecoverMs = 0 ∨
          (s.lastRecoverMs ≤ t0 ∧ s.backoffMs ≤ t0 - s.lastRecoverMs)) →
        (usb_watchdog_tick t0 s).recoverAttempts = s.recoverAttempts + 1 ∧
        (usb_watchdog_tick t0 s).lastRecoverMs = t0 ∧
        (usb_watchdog_tick t0 s).backoffMs
          = (if s.backoffMs < USB_RECOVER_BACKOFF_MAX_MS then
               min (s.backoffMs * 2) USB_RECOVER_BACKOFF_MAX_MS
             else s.backoffMs)) ∧
    (USB_RECOVER_MAX_ATTEMPTS ≤ s.recoverAttempts →
        (usb_watchdog_tick t0 s).recoverAttempts = s.recoverAttempts) ∧
    ((tud_mount_cb t2 s).recoverAttempts = 0 ∧
     (tud_mount_cb t2 s).backoffMs = USB_RECOVER_BACKOFF_START_MS) := by
  have hmod : t0 % W32 = t0 := Nat.mod_eq_of_lt ht
  refine ⟨?_, ?_, ?_, ?_⟩
  · intro hlr hle hsoon
    rw [tick_eq_no_fire t0 s, (kickBlock_preserves s).2.2.2.2.2.2.2]
    intro hf
    rcases hf.2.2.2.2.2.2 with hz | hge
    · exact hlr hz
    · rw [hmod, u32sub_of_le t0 s.lastRecoverMs hle ht] at hge
      omega
  · intro hmm hmle hgrace hatt hback
    have hf : FireCond t0 s := by
      refine ⟨hready, hmnt, hrx, hmm, ?_, hatt, ?_⟩
      · rw [hmod, u32sub_of_le t0 s.mountMs hmle ht]
        exact hgrace
      · rcases hback with hz | ⟨hle, hge⟩
        · exact Or.inl hz
        · right
          rw [hmod, u32sub_of_le t0 s.lastRecoverMs hle ht]
          exact hge
    rw [tick_eq_fire t0 s hf]
    have he := recoverSeq_effects (t0 % W32) t0 (wdKickDelay s) (wdKickBlock s)
    have hp := kickBlock_preserves s
    refine ⟨?_, ?_, ?_⟩
    · rw [he.1, hp.2.2.2.2.2.2.2]
    · rw [he.2.1, hmod]
    · rw [he.2.2.2, hp.2.2.2.2.2.2.1]
  · intro hmax
    rw [tick_eq_no_fire t0 s, (kickBlock_preserves s).2.2.2.2.2.2.2]
    intro hf
    have := hf.2.2.2.2.2.1
    omega
  · constructor <;> simp [tud_mount_cb, usb_set_link_state]

theorem C4_recovery_backoff_witness :
    ((usb_watchdog_tick 2600
        (usb_watchdog_tick 2500 (tud_mount_cb 10 (stack_ready_set initNet)))).recoverAttempts
       = (usb_watchdog_tick 2500 (tud_mount_cb 10 (stack_ready_set initNet))).recoverAttempts) ∧
    ((usb_watchdog_tick 2500 (tud_mount_cb 10 (stack_ready_set initNet))).recoverAttempts
       = (tud_mount_cb 10 (stack_ready_set initNet)).recoverAttempts + 1 ∧
     (usb_watchdog_tick 2500 (tud_mount_cb 10 (stack_ready_set initNet))).lastRecoverMs = 2500 ∧
     (usb_watchdog_tick 2500 (tud_mount_cb 10 (stack_ready_set initNet))).backoffMs
       = (if (tud_mount_cb 10 (stack_ready_set initNet)).backoffMs
              < USB_RECOVER_BACKOFF_MAX_MS then
            min ((tud_mount_cb 10 (stack_ready_set initNet)).backoffMs * 2)
              USB_RECOVER_BACKOFF_MAX_MS
          else (tud_mount_cb 10 (stack_ready_set initNet)).backoffMs)) ∧
    ((tud_mount_cb 77 (tud_mount_cb 10 (stack_ready_set initNet))).recoverAttempts = 0 ∧
     (tud_mount_cb 77 (tud_mount_cb 10 (stack_ready_set initNet))).backoffMs
       = USB_RECOVER_BACKOFF_START_MS) :=
  ⟨(C4_recovery_backoff 2600 77
      (usb_watchdog_tick 2500 (tud_mount_cb 10 (stack_ready_set initNet)))
      (by decide) (by decide) (by decide) (by decide)).1
      (by decide) (by decide) (by decide),
   (C4_recovery_backoff 2500 77 (tud_mount_cb 10 (stack_ready_set initNet))
      (by decide) (by decide) (by decide) (by decide)).2.1
      (by decide) (by decide) (by decide) (by decide) (Or.inl (by decide)),
   (C4_recovery_backoff 2500 77 (tud_mount_cb 10 (stack_ready_set initNet))
      (by decide) (by decide) (by decide) (by decide)).2.2.2⟩

/-- C8: the stack-ready kick is performed at most once per link-down period.
A watchdog tick from a link-up state performs no stack-ready kick and leaves
the link up; a tick from a link-down state (stack ready, mounted) performs
exactly one kick, brings the link up, and a second tick at any time adds no
further kick.  (The stack-ready condition itself only sets a flag —
`stack_ready_set` is idempotent on every field the kick reads — so
delivering it twice changes nothing the watchdog looks at.) -/
theorem C8_single_kick (t t2 : Nat) (s : NetSt) :
    (s.linkUp = true →
        (usb_watchdog_tick t s).stackKicks = s.stackKicks ∧
        (usb_watchdog_tick t s).linkUp = true) ∧
    (s.linkUp = false → s.stackReady = true → s.mounted = true →
        (usb_watchdog_tick t s).stackKicks = s.stackKicks + 1 ∧
        (usb_watchdog_tick t s).linkUp = true ∧
        (usb_watchdog_tick t2 (usb_watchdog_tick t s)).stackKicks
          = s.stackKicks + 1) := by
  constructor
  · intro hup
    refine ⟨?_, tick_linkUp_of_linkUp t s hup⟩
    rw [tick_stackKicks_eq, if_neg]
    intro hc
    rw [hup] at hc
    exact absurd hc.2.2 (by simp)
  · intro hdn hsr hm
    have h1 : (usb_watchdog_tick t s).stackKicks = s.stackKicks + 1 := by
      rw [tick_stackKicks_eq, if_pos ⟨hsr, hm, hdn⟩]
    have h2 : (usb_watchdog_tick t s).linkUp = true := by
      rcases tick_cases t s with h | ⟨h, _, _⟩
      · rw [h, kickBlock_linkUp, if_pos ⟨hsr, hm, hdn⟩]
      · rw [h]; exact (recoverSeq_effects _ _ _ _).2.2.1
    refine ⟨h1, h2, ?_⟩
    rw [tick_stackKicks_eq, if_neg, h1]
    intro hc
    rw [h2] at hc
    exact absurd hc.2.2 (by simp)

theorem C8_single_kick_witness :
    ((usb_watchdog_tick 300 (tud_mount_cb 10 (stack_ready_set initNet))).stackKicks
       = (tud_mount_cb 10 (stack_ready_set initNet)).stackKicks + 1 ∧
     (usb_watchdog_tick 300 (tud_mount_cb 10 (stack_ready_set initNet))).linkUp = true ∧
     (usb_watchdog_tick 550
        (usb_watchdog_tick 300 (tud_mount_cb 10 (stack_ready_set initNet)))).stackKicks
       = (tud_mount_cb 10 (stack_ready_set initNet)).stackKicks + 1) :=
  (C8_single_kick 300 550 (tud_mount_cb 10 (stack_ready_set initNet))).2
    (by decide) (by decide) (by decide)

/-- C1 counterexample: a state reachable through stack-ready, mount, suspend
and one watchdog tick in which the link is up while the device is between
its suspend and resume callbacks — the watchdog's stack-ready kick does not
check for suspension, so `linkUp ⇒ ¬suspended` fails on the code. -/
theorem C1_counterexample_suspended_link_up :
    ReachableNet suspendedTickSt ∧
    suspendedTickSt.linkUp = true ∧
    suspendedTickSt.suspended = true :=
  ⟨ReachableNet.tick 1100 _
     (ReachableNet.suspend true _
       (ReachableNet.mount 1000 _
         (ReachableNet.stackReady _ ReachableNet.init))),
   by decide, by decide⟩

/-- C1 (amended): for every reachable state, `linkUp = true` implies
`mounted ∧ stackReady`.  The `¬suspended` conjunct of the claim is dropped:
it does not hold (see the counterexample). -/
theorem C1_link_up_invariant (s : NetSt) (hr : ReachableNet s) :
    s.linkUp = true → s.mounted = true ∧ s.stackReady = true := by
  induction hr with
  | init => intro h; simp [initNet] at h
  | stackReady s' _ ih =>
    intro h
    exact ⟨(ih h).1, rfl⟩
  | mount t s' _ _ =>
    intro h
    simp [tud_mount_cb, usb_set_link_state] at h
  | umount s' _ _ =>
    intro h
    simp [tud_umount_cb, usb_set_link_state] at h
  | suspend w s' _ _ =>
    intro h
    simp [tud_suspend_cb, usb_set_link_state] at h
  | resume s' _ ih =>
    intro h
    have hp := resume_fields s'
    rw [hp.1, hp.2.1]
    rcases hp.2.2 h with hc | hold
    · exact hc
    · exact ih hold
  | tick t s' _ ih =>
    intro h
    have hp := tick_preserves_flags t s'
    rw [hp.1, hp.2.1]
    rcases tick_linkUp_src t s' h with hc | hold
    · exact ⟨hc.2, hc.1⟩
    · exact ih hold
  | recv t frame len s' _ ih =>
    intro h
    have hp := recv_preserves_link_fields t frame len s'
    rw [hp.1, hp.2.1]
    exact ih (by rw [← hp.2.2.1]; exact h)
  | transmit f frame len s' _ ih =>
    intro h
    have hp := transmit_preserves_link_fields f frame len s'
    rw [hp.1, hp.2.1]
    exact ih (by rw [← hp.2.2.1]; exact h)

theorem C1_link_up_invariant_witness :
    (usb_watchdog_tick 400 (tud_mount_cb 5 (stack_ready_set initNet))).mounted = true ∧
    (usb_watchdog_tick 400 (tud_mount_cb 5 (stack_ready_set initNet))).stackReady = true :=
  C1_link_up_invariant _
    (ReachableNet.tick 400 _
      (ReachableNet.mount 5 _ (ReachableNet.stackReady _ ReachableNet.init)))
    (by decide)

end McuBridge
